import Mathlib

/-!
Verification of the aurum managed-object heap core.

This file shallowly embeds the heap, handle and object-constructor code of
the `vm` / `aurum_memory` / `aurum_vm` crates:

* `FreeCache`, `DeBruijn`     — src/vm/src/object/de_bruijn.rs
* object layout               — src/vm/src/object/mod.rs
* symbol construction         — src/vm/src/object/symbol.rs,
                                src/aurum_memory/src/object/symbol.rs
* variable construction       — src/vm/src/object/variable.rs
* application construction    — src/vm/src/object/application.rs,
                                src/aurum_vm/src/object/application.rs
* heap, scopes, handles       — src/vm/src/heap/heap.rs,
                                src/aurum_memory/src/heap/{handle,scope,alloc}.rs

Machine integers are modelled as `Nat` with explicit bounds where overflow
matters (`u32` checks are written out as comparisons against `u32max`).
Addresses into the garbage-collected store are modelled as indices into a
list of objects; an `UnsafeHandle` is such an index.  The 4 native-endian
bytes of the header's `extra` field are modelled by the `u32` value they
encode (the code always round-trips them through `to_ne_bytes` /
`from_ne_bytes`).
-/

/-- The largest value representable in a `u32`. -/
def u32max : Nat := 2 ^ 32 - 1

/-- `FreeCache` from src/vm/src/object/de_bruijn.rs: a byte-sized summary of
which De Bruijn indices 0..7 appear free in an object.  `bits` is the `u8`
field; the "unknown" state is represented by 0xFF. -/
structure FreeCache where
  bits : Nat
deriving DecidableEq, Repr

namespace FreeCache

/-- `FreeCache::EMPTY`: the free variables cache with no variables. -/
def EMPTY : FreeCache := ⟨0⟩

/-- `FreeCache::UNKNOWN`: the free variables cache in the "unknown" state. -/
def UNKNOWN : FreeCache := ⟨0xFF⟩

/-- `FreeCache::insert`: insert a variable into the free variables cache.
If the De Bruijn index is larger than 7, the "unknown" cache is returned. -/
def insert (c : FreeCache) (de_bruijn : Nat) : FreeCache :=
  if de_bruijn ≥ 8 then UNKNOWN
  else ⟨c.bits ||| (1 <<< de_bruijn)⟩

/-- `FreeCache::contains`: `None` in the "unknown" state, otherwise a bit
test (indices ≥ 8 are never in a non-unknown cache). -/
def contains (c : FreeCache) (de_bruijn : Nat) : Option Bool :=
  if c.bits = UNKNOWN.bits then none
  else if de_bruijn ≥ 8 then some false
  else some (c.bits &&& (1 <<< de_bruijn) != 0)

/-- Modelled from the spec: the `BitOrAssign` impl of `FreeCache` (used as
`free_cache |= field.free_cache()` in src/vm/src/object/application.rs and
as `free_cache |= field.header().free_cache` in
src/aurum_vm/src/object/application.rs) is not itself under src/.  The spec
says "Union is bitwise OR with UNKNOWN absorbing"; since `UNKNOWN` is the
all-ones byte 0xFF, bitwise OR on the `u8` bits is UNKNOWN-absorbing. -/
def union (a b : FreeCache) : FreeCache := ⟨a.bits ||| b.bits⟩

end FreeCache

/-- `Kind` from src/vm/src/object/mod.rs: discriminates the payload type. -/
inductive Kind
  | Symbol
  | Variable
  | Application
deriving DecidableEq, Repr

/-- `Flags` from src/vm/src/object/mod.rs: the MARKED and PINNED bits. -/
structure Flags where
  marked : Bool
  pinned : Bool
deriving DecidableEq, Repr

/-- `Flags::empty()`. -/
def Flags.empty : Flags := ⟨false, false⟩

/-- Object header (src/vm/src/object/mod.rs).  `extra` holds the `u32`
value encoded by the 4 native-endian extra bytes. -/
structure Header where
  kind : Kind
  flags : Flags
  free_cache : FreeCache
  extra : Nat
deriving DecidableEq, Repr

/-- The kind-dependent payload that the constructors write after the
header: a Symbol stores the raw name bytes, a Variable stores nothing, an
Application stores the field handle slots (slot 0 = function). -/
inductive Payload
  | bytes (name : List Nat)
  | nothing
  | fields (slots : List Nat)
deriving DecidableEq, Repr

/-- The name bytes stored in a Symbol payload (empty for other kinds). -/
def Payload.asBytes : Payload → List Nat
  | .bytes name => name
  | _ => []

/-- The handle slots stored in an Application payload (empty otherwise). -/
def Payload.asFields : Payload → List Nat
  | .fields slots => slots
  | _ => []

/-- A managed object: header plus payload (src/vm/src/object/mod.rs;
the zero-sized `heap_id` brand has no runtime content and is omitted). -/
structure Object where
  header : Header
  payload : Payload
deriving DecidableEq, Repr

instance : Inhabited Object :=
  ⟨{ header := { kind := .Symbol, flags := Flags.empty,
                 free_cache := FreeCache.EMPTY, extra := 0 },
     payload := .bytes [] }⟩

/-- The heap (src/vm/src/heap/heap.rs).  `store` models the garbage
collected storage: the object at unsafe-handle address `a` is
`store.getD a default`; allocation appends.  `scopes` is the stack of
scopes (`RefCell<Vec<*const [Cell<UnsafeHandle>]>>`), each scope being the
current contents of its handle cells. -/
structure Heap where
  store : List Object
  scopes : List (List Nat)
  interned_null : Nat
  interned_variables : List Nat
deriving DecidableEq, Repr

/-- `INTERNED_VARIABLE_COUNT` (src/vm/src/heap/heap.rs). -/
def INTERNED_VARIABLE_COUNT : Nat := 16

/-- A scoped handle (src/vm/src/heap/handle.rs): a pointer to a handle
cell inside a scope, modelled as (scope index on the stack, slot index). -/
def ScopedRef : Type := Nat × Nat
deriving instance DecidableEq, Repr for ScopedRef

/-- The scoped ref denotes a slot of a scope currently on the stack. -/
def Heap.validRef (h : Heap) (r : ScopedRef) : Prop :=
  r.1 < h.scopes.length ∧ r.2 < (h.scopes.getD r.1 []).length

instance (h : Heap) (r : ScopedRef) : Decidable (h.validRef r) := by
  unfold Heap.validRef; infer_instance

/-- `ScopedHandle::as_unsafe_handle` (src/vm/src/heap/handle.rs):
fetch the current contents of the cell of the slot. -/
def Heap.readSlot (h : Heap) (r : ScopedRef) : Nat :=
  (h.scopes.getD r.1 []).getD r.2 0

/-- `ScopedHandle::copy_from_unsafe_handle` (src/vm/src/heap/handle.rs):
overwrite the cell of the slot with the given unsafe handle. -/
def Heap.writeSlot (h : Heap) (r : ScopedRef) (a : Nat) : Heap :=
  { h with scopes := h.scopes.set r.1 ((h.scopes.getD r.1 []).set r.2 a) }

/-- Dereference an unsafe handle: the object at address `a`. -/
def Heap.getObj (h : Heap) (a : Nat) : Object :=
  h.store.getD a default

/-- Write (insert or remove) the PINNED flag of the object at address `a`,
as `(*flags).insert(Flags::PINNED)` / `(*flags).remove(Flags::PINNED)` do
in `ScopedHandle::with_pin` (src/aurum_memory/src/heap/handle.rs). -/
def Heap.setPinned (h : Heap) (a : Nat) (b : Bool) : Heap :=
  { h with
    store := h.store.set a
      (let o := h.getObj a
       { o with header := { o.header with
                            flags := { o.header.flags with pinned := b } } }) }

/-- `Heap::alloc` (src/vm/src/heap/heap.rs): obtain fresh storage and
initialize the object; returns the new heap and the unsafe handle to the
object.  The header/payload writes done by the per-kind `init` closures
are modelled by passing the fully initialized object. -/
def Heap.allocObj (h : Heap) (obj : Object) : Heap × Nat :=
  ({ h with store := h.store ++ [obj] }, h.store.length)

/-- `ScopedHandle::with_pin` (src/aurum_memory/src/heap/handle.rs):
read the object through the scoped handle; if it is already pinned, run
`then_` and leave the flag alone; otherwise set PINNED, run `then_`, and
clear PINNED afterwards (the clearing is a `defer!`, so it also runs when
`then_` terminates abnormally — abnormal termination is modelled by
instantiating `R` with an `Except` result that the caller inspects). -/
def Heap.with_pin {R : Type} (h : Heap) (s : ScopedRef)
    (then_ : Heap → Nat → Heap × R) : Heap × R :=
  let pinned_handle := h.readSlot s
  let already_pinned := (h.getObj pinned_handle).header.flags.pinned
  let h1 := if already_pinned then h else h.setPinned pinned_handle true
  let out := then_ h1 pinned_handle
  let h2 := if already_pinned then out.1 else out.1.setPinned pinned_handle false
  (h2, out.2)

/-- `Heap::with_scope` (src/vm/src/heap/heap.rs): push the scope, run
`then_` giving it the position of the new scope on the stack, pop the scope. -/
def Heap.with_scope {R : Type} (h : Heap) (scope : List Nat)
    (then_ : Heap → Nat → Heap × R) : Heap × R :=
  let h1 := { h with scopes := h.scopes ++ [scope] }
  let out := then_ h1 h.scopes.length
  ({ out.1 with scopes := out.1.scopes.dropLast }, out.2)

/-- `Heap::with_new_array_scope` (src/vm/src/heap/heap.rs): a scope of `n`
slots on the caller's frame, every slot initialized to `interned_null`
(`Cell::new([self.interned_null; N])`). -/
def Heap.with_new_array_scope {R : Type} (h : Heap) (n : Nat)
    (then_ : Heap → Nat → Heap × R) : Heap × R :=
  h.with_scope (List.replicate n h.interned_null) then_

/-- `Heap::with_new_boxed_scope` (src/vm/src/heap/heap.rs): a scope of
`size` slots on the heap, every slot initialized to `interned_null`
(`vec![Cell::new(self.interned_null); size]`). -/
def Heap.with_new_boxed_scope {R : Type} (h : Heap) (size : Nat)
    (then_ : Heap → Nat → Heap × R) : Heap × R :=
  h.with_scope (List.replicate size h.interned_null) then_

/-- `PTR_SIZE` (src/vm/src/object/application.rs):
`size_of::<UnsafeHandle>()` on the 64-bit target, i.e. 8 bytes. -/
def PTR_SIZE : Nat := 8

/-- `NumArgumentsError` (src/vm/src/object/application.rs). -/
inductive NumArgumentsError
  | mk
deriving DecidableEq, Repr

/-- `SymbolLenError` (src/vm/src/object/symbol.rs). -/
inductive SymbolLenError
  | mk
deriving DecidableEq, Repr

/-- `payload_size` (src/vm/src/object/application.rs and identically
src/aurum_vm/src/object/application.rs): `num_arguments.try_into()` to
`u32`, then `checked_add(1)`, then `checked_mul(PTR_SIZE)`; every overflow
yields `NumArgumentsError`. -/
def payload_size (num_arguments : Nat) : Except NumArgumentsError Nat :=
  if num_arguments > u32max then .error .mk
  else if num_arguments + 1 > u32max then .error .mk
  else if (num_arguments + 1) * PTR_SIZE > u32max then .error .mk
  else .ok ((num_arguments + 1) * PTR_SIZE)

/-- `Heap::alloc_symbol` (src/vm/src/object/symbol.rs): fail with
`SymbolLenError` when the name length does not fit `u32`; otherwise
allocate a Symbol whose extra field is the name length and whose payload
is the name bytes; `free_cache` is `EMPTY`. -/
def Heap.alloc_symbol (h : Heap) (name : List Nat) :
    Heap × Except SymbolLenError Nat :=
  if name.length > u32max then (h, .error .mk)
  else
    let (h1, a) := h.allocObj
      { header := { kind := .Symbol, flags := Flags.empty,
                    free_cache := FreeCache.EMPTY, extra := name.length },
        payload := .bytes name }
    (h1, .ok a)

/-- The Variable object built by `Heap::alloc_variable_not_interned`
(src/vm/src/object/variable.rs): empty payload, De Bruijn index in the
extra field, free cache `EMPTY.insert(de_bruijn)`. -/
def variableObject (de_bruijn : Nat) : Object :=
  { header := { kind := .Variable, flags := Flags.empty,
                free_cache := FreeCache.EMPTY.insert de_bruijn,
                extra := de_bruijn },
    payload := .nothing }

/-- `Heap::alloc_variable_not_interned` (src/vm/src/object/variable.rs).
Its error type is `!`, so it always succeeds. -/
def Heap.alloc_variable_not_interned (h : Heap) (de_bruijn : Nat) :
    Heap × Nat :=
  h.allocObj (variableObject de_bruijn)

/-- `Heap::alloc_variable` (src/vm/src/object/variable.rs): consult
`self.interned_variables.get(de_bruijn.0 as usize)`; a hit returns the
interned handle without allocating, a miss allocates a fresh
non-interned Variable.  Its error type is `!`, so it never fails. -/
def Heap.alloc_variable (h : Heap) (de_bruijn : Nat) : Heap × Nat :=
  match h.interned_variables.get? de_bruijn with
  | some result => (h, result)
  | none => h.alloc_variable_not_interned de_bruijn

/-- `Heap::alloc_application` (src/vm/src/object/application.rs): compute
the payload size (propagating `NumArgumentsError`), store
`num_fields = payload_size / PTR_SIZE` in the extra field, store the
function handle followed by the argument handles in the payload, and fold
the free caches of the fields (starting from the `EMPTY` written by
`Heap::alloc`) with `|=`. -/
def Heap.alloc_application (h : Heap) (function : ScopedRef)
    (arguments : List ScopedRef) : Heap × Except NumArgumentsError Nat :=
  match payload_size arguments.length with
  | .error e => (h, .error e)
  | .ok psize =>
    let num_fields := psize / PTR_SIZE
    let fields := function :: arguments
    let free_cache :=
      fields.foldl
        (fun c f => c.union (h.getObj (h.readSlot f)).header.free_cache)
        FreeCache.EMPTY
    let (h1, a) := h.allocObj
      { header := { kind := .Application, flags := Flags.empty,
                    free_cache := free_cache, extra := num_fields },
        payload := .fields (fields.map h.readSlot) }
    (h1, .ok a)

/-- `Heap::new_symbol` (generated by `alloc_methods!` in
src/vm/src/object/macros.rs; spelled out in
src/aurum_memory/src/object/symbol.rs): `alloc_symbol` then store the
resulting handle into the destination scoped handle.  On error the heap
is returned unchanged (the error is raised before any allocation). -/
def Heap.new_symbol (h : Heap) (into : ScopedRef) (name : List Nat) :
    Heap × Except SymbolLenError Unit :=
  match h.alloc_symbol name with
  | (h1, .ok a) => (h1.writeSlot into a, .ok ())
  | (h1, .error e) => (h1, .error e)

/-- `Heap::new_variable` (src/vm/src/object/variable.rs via
`alloc_methods!`): `alloc_variable` then store the handle into the
destination scoped handle.  Error type `!`: never fails. -/
def Heap.new_variable (h : Heap) (into : ScopedRef) (de_bruijn : Nat) :
    Heap :=
  let (h1, a) := h.alloc_variable de_bruijn
  h1.writeSlot into a

/-- `Heap::new_application` (src/vm/src/object/application.rs via
`alloc_methods!`; spelled out in src/aurum_vm/src/object/application.rs):
`alloc_application` then store the handle into the destination scoped
handle.  On error the heap is returned unchanged. -/
def Heap.new_application (h : Heap) (into function : ScopedRef)
    (arguments : List ScopedRef) : Heap × Except NumArgumentsError Unit :=
  match h.alloc_application function arguments with
  | (h1, .ok a) => (h1.writeSlot into a, .ok ())
  | (h1, .error e) => (h1, .error e)

/-- `PinnedHandle::as_symbol` (src/aurum_memory/src/object/symbol.rs):
if the kind is Symbol, read the name length from the extra field and
return that many payload bytes (`slice::from_raw_parts(payload,
name_len)`). -/
def Heap.as_symbol (h : Heap) (a : Nat) : Option (List Nat) :=
  let obj := h.getObj a
  match obj.header.kind with
  | .Symbol => some (obj.payload.asBytes.take obj.header.extra)
  | _ => none

/-- `PinnedHandle::as_application`
(src/aurum_vm/src/object/application.rs): if the kind is Application,
read `num_fields` from the extra field; the function is payload slot 0
and the arguments are the `num_fields - 1` slots after it. -/
def Heap.as_application (h : Heap) (a : Nat) :
    Option (Nat × List Nat) :=
  let obj := h.getObj a
  match obj.header.kind with
  | .Application =>
    let fields := obj.payload.asFields
    some (fields.getD 0 0, (fields.drop 1).take (obj.header.extra - 1))
  | _ => none

/-- Modelled from the spec: the `Heap::interned_variable` accessor called
by src/aurum_vm/src/object/variable.rs lives in the heap
module of the aurum crates, which is not under src/.  The spec says:
"`interned_variable(db)`: if db < 16 returns the preallocated Variable;
otherwise None", which is exactly `self.interned_variables.get(db)` as
`alloc_variable` of the vm crate (src/vm/src/object/variable.rs) spells
it. -/
def Heap.interned_variable (h : Heap) (de_bruijn : Nat) : Option Nat :=
  h.interned_variables.get? de_bruijn

/-- The byte string `b"Null"`. -/
def nullSymbolName : List Nat := [78, 117, 108, 108]

/-- The heap as `Heap::with_new` (src/vm/src/heap/heap.rs) hands it to its
continuation: start from dangling interned handles (the sentinel address 8
of `UnsafeHandle::dangling`), allocate the interned `b"Null"` symbol, then
allocate the 16 interned variables (`alloc_variable_not_interned` for
i in 0..16). -/
def Heap.initial : Heap :=
  let h0 : Heap :=
    { store := [], scopes := [], interned_null := 8,
      interned_variables := List.replicate INTERNED_VARIABLE_COUNT 8 }
  match h0.alloc_symbol nullSymbolName with
  | (h1, .ok a) =>
    let h2 := { h1 with interned_null := a }
    (List.range INTERNED_VARIABLE_COUNT).foldl
      (fun h i =>
        let (h3, v) := h.alloc_variable_not_interned i
        { h3 with interned_variables := h3.interned_variables.set i v })
      h2
  | (h1, .error _) => h1

/-- `Heap::with_new` (src/vm/src/heap/heap.rs): build the heap, then call
the continuation on it. -/
def Heap.with_new {R : Type} (then_ : Heap → R) : R :=
  then_ Heap.initial

/-- End-to-end free-cache demonstration pipeline, following the shape of
the application round-trip test in src/aurum_vm/src/object/application.rs:
open a boxed scope, build a symbol as the function, build one Variable per
De Bruijn index in `dbs` as the arguments, build the Application over
them, and read back the free cache of the Application object. -/
def appFreeCacheDemo (dbs : List Nat) : FreeCache :=
  (Heap.initial.with_new_boxed_scope (dbs.length + 2) (fun h0 s =>
    let h1 := (h0.new_symbol (s, 0) [102]).1
    let h2 := (List.range dbs.length).foldl
      (fun h i => h.new_variable (s, 1 + i) (dbs.getD i 0)) h1
    let app : ScopedRef := (s, dbs.length + 1)
    let h3 := (h2.new_application app (s, 0)
      ((List.range dbs.length).map (fun i => (s, 1 + i)))).1
    (h3, (h3.getObj (h3.readSlot app)).header.free_cache))).2

/-- A concrete heap with one open one-slot scope, used to instantiate the
universally quantified theorems below on a concrete input. -/
def demoHeap : Heap :=
  { Heap.initial with scopes := [[Heap.initial.interned_null]] }

/-! Helper lemmas about `FreeCache` bit arithmetic. -/

lemma FreeCache.bits_and_shift (x d : Nat) :
    (x &&& (1 <<< d) != 0) = x.testBit d := by
  rw [Nat.one_shiftLeft, Nat.and_two_pow]
  cases h : x.testBit d <;> simp [h, Nat.two_pow_pos]

lemma FreeCache.lor_unknown (d : Nat) (hd : d < 8) :
    255 ||| (1 <<< d) = 255 := by
  interval_cases d <;> decide

lemma FreeCache.two_pow_ne_255 (d : Nat) (hd : d < 8) : 1 <<< d ≠ 255 := by
  interval_cases d <;> decide

lemma FreeCache.insert_large (c : FreeCache) (a : Nat) (ha : 8 ≤ a) :
    c.insert a = UNKNOWN := by
  unfold insert; rw [if_pos ha]

lemma FreeCache.insert_small (c : FreeCache) (a : Nat) (ha : ¬ 8 ≤ a) :
    c.insert a = ⟨c.bits ||| (1 <<< a)⟩ := by
  unfold insert; rw [if_neg ha]

lemma FreeCache.insert_unknown (b : Nat) : UNKNOWN.insert b = UNKNOWN := by
  by_cases hb : 8 ≤ b
  · exact insert_large _ _ hb
  · rw [insert_small _ _ hb]
    show FreeCache.mk (255 ||| (1 <<< b)) = _
    rw [lor_unknown b (by omega)]
    rfl

lemma FreeCache.insert_right_comm (c : FreeCache) (a b : Nat) :
    (c.insert a).insert b = (c.insert b).insert a := by
  by_cases ha : 8 ≤ a
  · rw [insert_large c a ha, insert_large (c.insert b) a ha, insert_unknown]
  · by_cases hb : 8 ≤ b
    · rw [insert_large c b hb, insert_large (c.insert a) b hb, insert_unknown]
    · rw [insert_small c a ha, insert_small c b hb,
        insert_small _ b hb, insert_small _ a ha]
      show FreeCache.mk _ = FreeCache.mk _
      congr 1
      rw [Nat.lor_assoc, Nat.lor_assoc, Nat.lor_comm (1 <<< a)]

lemma FreeCache.contains_some_true {c : FreeCache} {d : Nat}
    (h : c.contains d = some true) : c.bits.testBit d = true := by
  unfold contains at h
  by_cases h1 : c.bits = UNKNOWN.bits
  · simp [h1] at h
  · rw [if_neg h1] at h
    by_cases h2 : 8 ≤ d
    · simp [h2] at h
    · rw [if_neg h2] at h
      rw [← bits_and_shift]
      simpa using h

/-! Helper lemmas about slots, scopes and the store. -/

lemma aux_getD_replicate {n j x : Nat} (hj : j < n) :
    (List.replicate n x).getD j 0 = x := by
  simp [List.getD_eq_getElem?_getD, List.getElem?_replicate, hj]

lemma aux_readSlot_push (h : Heap) (scope : List Nat) (j : Nat) :
    ({ h with scopes := h.scopes ++ [scope] } : Heap).readSlot
      (h.scopes.length, j) = scope.getD j 0 := by
  simp [Heap.readSlot, List.getD_eq_getElem?_getD, List.getElem?_concat_length]

lemma aux_writeSlot_store (h : Heap) (r : ScopedRef) (a : Nat) :
    (h.writeSlot r a).store = h.store := rfl

lemma aux_writeSlot_interned (h : Heap) (r : ScopedRef) (a : Nat) :
    (h.writeSlot r a).interned_variables = h.interned_variables := rfl

lemma aux_readSlot_writeSlot_self (h : Heap) (r : ScopedRef) (a : Nat)
    (hv : h.validRef r) : (h.writeSlot r a).readSlot r = a := by
  obtain ⟨i, j⟩ := r
  obtain ⟨h1, h2⟩ := hv
  simp only [Heap.readSlot, Heap.writeSlot, List.getD_eq_getElem?_getD]
  rw [List.getElem?_set_self (by simpa using h1)]
  simp only [Option.getD_some]
  rw [List.getElem?_set_self (by simpa [List.getD_eq_getElem?_getD] using h2)]
  rfl

lemma aux_validRef_writeSlot (h : Heap) (r r' : ScopedRef) (a : Nat) :
    (h.writeSlot r a).validRef r' ↔ h.validRef r' := by
  obtain ⟨i, j⟩ := r
  obtain ⟨i', j'⟩ := r'
  unfold Heap.validRef Heap.writeSlot
  by_cases he : i = i'
  · subst he
    by_cases hlt : i < h.scopes.length
    · simp [List.getD_eq_getElem?_getD, List.getElem?_set_self hlt]
    · rw [List.set_eq_of_length_le (by omega)]
  · simp [List.getD_eq_getElem?_getD, List.getElem?_set_ne he]

lemma aux_validRef_allocObj (h : Heap) (o : Object) (r : ScopedRef) :
    (h.allocObj o).1.validRef r ↔ h.validRef r := Iff.rfl

lemma aux_readSlot_allocObj (h : Heap) (o : Object) (r : ScopedRef) :
    (h.allocObj o).1.readSlot r = h.readSlot r := rfl

lemma aux_getObj_allocObj_new (h : Heap) (o : Object) :
    (h.allocObj o).1.getObj (h.allocObj o).2 = o := by
  simp [Heap.allocObj, Heap.getObj, List.getD_eq_getElem?_getD,
    List.getElem?_concat_length]

lemma aux_getObj_writeSlot (h : Heap) (r : ScopedRef) (a x : Nat) :
    (h.writeSlot r a).getObj x = h.getObj x := rfl

lemma aux_getObj_setPinned_same (h : Heap) (a : Nat) (b : Bool)
    (ha : a < h.store.length) :
    (h.setPinned a b).getObj a =
      (let o := h.getObj a
       { o with header := { o.header with
                            flags := { o.header.flags with pinned := b } } }) := by
  simp [Heap.setPinned, Heap.getObj, List.getD_eq_getElem?_getD,
    List.getElem?_set_self ha]

lemma aux_getObj_setPinned_ne (h : Heap) (a : Nat) (b : Bool) (a' : Nat)
    (he : a' ≠ a) : (h.setPinned a b).getObj a' = h.getObj a' := by
  simp [Heap.setPinned, Heap.getObj, List.getD_eq_getElem?_getD,
    List.getElem?_set_ne (Ne.symm he)]

lemma aux_setPinned_out (h : Heap) (a : Nat) (b : Bool)
    (hge : h.store.length ≤ a) : h.setPinned a b = h := by
  unfold Heap.setPinned
  rw [List.set_eq_of_length_le hge]

lemma aux_readSlot_setPinned (h : Heap) (a : Nat) (b : Bool) (r : ScopedRef) :
    (h.setPinned a b).readSlot r = h.readSlot r := rfl

lemma aux_pinned_setPinned (h : Heap) (a : Nat) (b : Bool)
    (ha : a < h.store.length) :
    ((h.setPinned a b).getObj a).header.flags.pinned = b := by
  rw [aux_getObj_setPinned_same h a b ha]

lemma aux_as_symbol_setPinned (h : Heap) (a : Nat) (b : Bool) (a' : Nat) :
    (h.setPinned a b).as_symbol a' = h.as_symbol a' := by
  by_cases he : a' = a
  · by_cases hlt : a < h.store.length
    · subst he
      unfold Heap.as_symbol
      rw [aux_getObj_setPinned_same h a' b hlt]
    · rw [aux_setPinned_out h a b (by omega)]
  · unfold Heap.as_symbol
    rw [aux_getObj_setPinned_ne h a b a' he]

lemma aux_as_application_setPinned (h : Heap) (a : Nat) (b : Bool) (a' : Nat) :
    (h.setPinned a b).as_application a' = h.as_application a' := by
  by_cases he : a' = a
  · by_cases hlt : a < h.store.length
    · subst he
      unfold Heap.as_application
      rw [aux_getObj_setPinned_same h a' b hlt]
    · rw [aux_setPinned_out h a b (by omega)]
  · unfold Heap.as_application
    rw [aux_getObj_setPinned_ne h a b a' he]

/-! Helper lemmas about `payload_size` and `new_application`. -/

lemma aux_payload_size_error_iff (n : Nat) :
    payload_size n = .error .mk ↔
      n + 1 > u32max ∨ (n + 1) * PTR_SIZE > u32max := by
  unfold payload_size u32max PTR_SIZE
  split_ifs with h1 h2 h3 <;> simp <;> omega

lemma aux_payload_size_ok (n : Nat)
    (h : ¬ (n + 1 > u32max ∨ (n + 1) * PTR_SIZE > u32max)) :
    payload_size n = .ok ((n + 1) * PTR_SIZE) := by
  unfold payload_size
  unfold u32max PTR_SIZE at h ⊢
  push_neg at h
  obtain ⟨h1, h2⟩ := h
  rw [if_neg (by omega), if_neg (by omega), if_neg (by omega)]

lemma aux_new_application_snd (h : Heap) (into function : ScopedRef)
    (arguments : List ScopedRef) :
    (h.new_application into function arguments).2 =
      (payload_size arguments.length).map (fun _ => ()) := by
  unfold Heap.new_application Heap.alloc_application
  cases hp : payload_size arguments.length with
  | error e => cases e; simp [Except.map]
  | ok v => simp [Except.map]

lemma aux_lor_255 (x : Nat) (hx : x < 256) : 255 ||| x = 255 := by
  apply Nat.eq_of_testBit_eq
  intro i
  rw [Nat.testBit_lor]
  have h255 : (255 : Nat) = 2 ^ 8 - 1 := by norm_num
  rw [h255, Nat.testBit_two_pow_sub_one]
  by_cases hi : i < 8
  · simp [hi]
  · have h28 : (256 : Nat) ≤ 2 ^ i := by
      calc (256 : Nat) = 2 ^ 8 := by norm_num
      _ ≤ 2 ^ i := Nat.pow_le_pow_right (by norm_num) (by omega)
    have hb : x.testBit i = false :=
      Nat.testBit_lt_two_pow (lt_of_lt_of_le hx h28)
    simp [hi, hb]

lemma aux_with_pin_already {R : Type} (h : Heap) (s : ScopedRef)
    (then_ : Heap → Nat → Heap × R)
    (hp : (h.getObj (h.readSlot s)).header.flags.pinned = true) :
    h.with_pin s then_ = then_ h (h.readSlot s) := by
  unfold Heap.with_pin
  simp [hp]

lemma aux_with_pin_fresh {R : Type} (h : Heap) (s : ScopedRef)
    (then_ : Heap → Nat → Heap × R)
    (hp : (h.getObj (h.readSlot s)).header.flags.pinned = false) :
    h.with_pin s then_ =
      ((then_ (h.setPinned (h.readSlot s) true) (h.readSlot s)).1.setPinned
        (h.readSlot s) false,
       (then_ (h.setPinned (h.readSlot s) true) (h.readSlot s)).2) := by
  unfold Heap.with_pin
  simp [hp]

lemma aux_getObj_allocObj_len (h : Heap) (o : Object) :
    (h.allocObj o).1.getObj h.store.length = o :=
  aux_getObj_allocObj_new h o

lemma aux_alloc_write_read (h : Heap) (into : ScopedRef) (o : Object)
    (hv : h.validRef into) :
    ((h.allocObj o).1.writeSlot into h.store.length).readSlot into
      = h.store.length :=
  aux_readSlot_writeSlot_self _ into _ ((aux_validRef_allocObj h o into).mpr hv)

lemma aux_alloc_write_getObj (h : Heap) (into : ScopedRef) (o : Object) :
    ((h.allocObj o).1.writeSlot into h.store.length).getObj h.store.length
      = o := by
  rw [aux_getObj_writeSlot]
  exact aux_getObj_allocObj_len h o

lemma aux_as_symbol_of_getObj (h : Heap) (a : Nat) (o : Object)
    (hg : h.getObj a = o) (hk : o.header.kind = Kind.Symbol) :
    h.as_symbol a = some (o.payload.asBytes.take o.header.extra) := by
  obtain ⟨⟨kind, flags, fc, extra⟩, payload⟩ := o
  cases hk
  unfold Heap.as_symbol
  rw [hg]

lemma aux_as_application_of_getObj (h : Heap) (a : Nat) (o : Object)
    (hg : h.getObj a = o) (hk : o.header.kind = Kind.Application) :
    h.as_application a =
      some (o.payload.asFields.getD 0 0,
        (o.payload.asFields.drop 1).take (o.header.extra - 1)) := by
  obtain ⟨⟨kind, flags, fc, extra⟩, payload⟩ := o
  cases hk
  unfold Heap.as_application
  rw [hg]

lemma aux_with_pin_as_symbol (h : Heap) (s : ScopedRef)
    (hp : (h.getObj (h.readSlot s)).header.flags.pinned = false) :
    (h.with_pin s (fun h' a => (h', h'.as_symbol a))).2
      = h.as_symbol (h.readSlot s) := by
  rw [aux_with_pin_fresh _ _ _ hp]
  show (h.setPinned (h.readSlot s) true).as_symbol (h.readSlot s) = _
  rw [aux_as_symbol_setPinned]

lemma aux_with_pin_as_application (h : Heap) (s : ScopedRef)
    (hp : (h.getObj (h.readSlot s)).header.flags.pinned = false) :
    (h.with_pin s (fun h' a => (h', h'.as_application a))).2
      = h.as_application (h.readSlot s) := by
  rw [aux_with_pin_fresh _ _ _ hp]
  show (h.setPinned (h.readSlot s) true).as_application (h.readSlot s) = _
  rw [aux_as_application_setPinned]

/-- Claim C1, counterexample: the claim promises success for every
argument count n up to 2 to the power 30, but at n = 2 to the power 30
the payload size (n + 1) * 8 overflows u32 and `new_application` returns
the error instead. -/
theorem C1_application_bound_counterexample :
    (List.replicate (2 ^ 30) ((0, 0) : ScopedRef)).length ≤ 2 ^ 30
    ∧ (demoHeap.new_application (0, 0) (0, 0)
        (List.replicate (2 ^ 30) ((0, 0) : ScopedRef))).2 = .error .mk := by
  constructor
  · rw [List.length_replicate]
  · rw [aux_new_application_snd, List.length_replicate,
      (aux_payload_size_error_iff _).mpr
        (Or.inr (by unfold u32max PTR_SIZE; norm_num))]
    rfl

/-- Claim C1 (amended): for every function handle F and argument handle
sequence of length n with n at most 536870910 (the largest n for which
(n + 1) * sizeof(handle) fits in u32 with 8-byte handles),
`new_application` succeeds, and `as_application` on the constructed
object through a pinned handle yields a function handle equal, as unsafe
handles, to F and an argument scope of length n whose slot-wise unsafe
handles equal the arguments in order. -/
theorem C1_application_roundtrip_amended (h : Heap) (into function : ScopedRef)
    (arguments : List ScopedRef) (hv : h.validRef into)
    (hn : arguments.length ≤ 536870910) :
    (h.new_application into function arguments).2 = .ok ()
    ∧ ((h.new_application into function arguments).1.with_pin into
        (fun h' a => (h', h'.as_application a))).2
      = some (h.readSlot function, arguments.map h.readSlot)
    ∧ (arguments.map h.readSlot).length = arguments.length := by
  have hps : payload_size arguments.length
      = .ok ((arguments.length + 1) * PTR_SIZE) :=
    aux_payload_size_ok _ (by unfold u32max PTR_SIZE; omega)
  have hdiv : (arguments.length + 1) * PTR_SIZE / PTR_SIZE
      = arguments.length + 1 :=
    Nat.mul_div_cancel _ (by unfold PTR_SIZE; norm_num)
  have h2eq : (h.new_application into function arguments).1
      = (h.allocObj
          { header :=
              { kind := .Application, flags := Flags.empty,
                free_cache :=
                  (function :: arguments).foldl
                    (fun c f => c.union (h.getObj (h.readSlot f)).header.free_cache)
                    FreeCache.EMPTY,
                extra := (arguments.length + 1) * PTR_SIZE / PTR_SIZE },
            payload := .fields ((function :: arguments).map h.readSlot) }).1.writeSlot
        into h.store.length := by
    unfold Heap.new_application Heap.alloc_application
    rw [hps]
    rfl
  have hsnd : (h.new_application into function arguments).2 = .ok () := by
    unfold Heap.new_application Heap.alloc_application
    rw [hps]
  have hr := aux_alloc_write_read h into
    { header :=
        { kind := .Application, flags := Flags.empty,
          free_cache :=
            (function :: arguments).foldl
              (fun c f => c.union (h.getObj (h.readSlot f)).header.free_cache)
              FreeCache.EMPTY,
          extra := (arguments.length + 1) * PTR_SIZE / PTR_SIZE },
      payload := .fields ((function :: arguments).map h.readSlot) } hv
  have hg := aux_alloc_write_getObj h into
    { header :=
        { kind := .Application, flags := Flags.empty,
          free_cache :=
            (function :: arguments).foldl
              (fun c f => c.union (h.getObj (h.readSlot f)).header.free_cache)
              FreeCache.EMPTY,
          extra := (arguments.length + 1) * PTR_SIZE / PTR_SIZE },
      payload := .fields ((function :: arguments).map h.readSlot) }
  refine ⟨hsnd, ?_, List.length_map _ _⟩
  rw [h2eq, aux_with_pin_as_application _ into (by rw [hr, hg]; rfl), hr,
    aux_as_application_of_getObj _ _ _ hg rfl]
  show some (((function :: arguments).map h.readSlot).getD 0 0,
    (((function :: arguments).map h.readSlot).drop 1).take
      ((arguments.length + 1) * PTR_SIZE / PTR_SIZE - 1)) = _
  rw [hdiv]
  show some (h.readSlot function,
    (arguments.map h.readSlot).take (arguments.length + 1 - 1)) = _
  rw [Nat.add_sub_cancel, List.take_of_length_le (by simp)]

/-- Witness for C1_application_roundtrip_amended at a concrete input. -/
theorem C1_application_roundtrip_witness :
    (demoHeap.new_application (0, 0) (0, 0)
        ([(0, 0)] : List ScopedRef)).2 = .ok ()
    ∧ ((demoHeap.new_application (0, 0) (0, 0)
          ([(0, 0)] : List ScopedRef)).1.with_pin (0, 0)
        (fun h' a => (h', h'.as_application a))).2
      = some (demoHeap.readSlot (0, 0),
          ([(0, 0)] : List ScopedRef).map demoHeap.readSlot)
    ∧ (([(0, 0)] : List ScopedRef).map demoHeap.readSlot).length
      = ([(0, 0)] : List ScopedRef).length :=
  C1_application_roundtrip_amended demoHeap (0, 0) (0, 0) [(0, 0)]
    (by decide) (by decide)

/-- Claim C2: `new_application` with n arguments fails (with the
too-many-arguments error) exactly when n + 1 or (n + 1) * sizeof(handle)
overflows u32; an application with 0 arguments is accepted; the maximum
n such that (n + 1) * sizeof(handle) fits in u32, namely 536870910, is
accepted and 536870911 is rejected. -/
theorem C2_new_application_error_boundary (h : Heap)
    (into function : ScopedRef) (arguments : List ScopedRef) :
    ((h.new_application into function arguments).2 = .error .mk ↔
      arguments.length + 1 > u32max
      ∨ (arguments.length + 1) * PTR_SIZE > u32max)
    ∧ (h.new_application into function []).2 = .ok ()
    ∧ (arguments.length = 536870910 →
        (h.new_application into function arguments).2 = .ok ())
    ∧ (arguments.length = 536870911 →
        (h.new_application into function arguments).2 = .error .mk) := by
  refine ⟨?_, ?_, fun hn => ?_, fun hn => ?_⟩
  · rw [aux_new_application_snd]
    constructor
    · intro hc
      apply (aux_payload_size_error_iff _).mp
      cases hp : payload_size arguments.length with
      | error e => cases e; rfl
      | ok v => rw [hp] at hc; simp [Except.map] at hc
    · intro hc
      rw [(aux_payload_size_error_iff _).mpr hc]
      rfl
  · rw [aux_new_application_snd]
    simp only [List.length_nil]
    rw [aux_payload_size_ok 0 (by unfold u32max PTR_SIZE; omega)]
    rfl
  · rw [aux_new_application_snd, hn,
      aux_payload_size_ok _ (by unfold u32max PTR_SIZE; omega)]
    rfl
  · rw [aux_new_application_snd, hn,
      (aux_payload_size_error_iff _).mpr (by unfold u32max PTR_SIZE; omega)]
    rfl

/-- Witness for C2_new_application_error_boundary at concrete inputs. -/
theorem C2_new_application_error_boundary_witness :
    (demoHeap.new_application (0, 0) (0, 0) []).2 = .ok ()
    ∧ (demoHeap.new_application (0, 0) (0, 0)
        (List.replicate 536870911 ((0, 0) : ScopedRef))).2 = .error .mk :=
  ⟨(C2_new_application_error_boundary demoHeap (0, 0) (0, 0) []).2.1,
   (C2_new_application_error_boundary demoHeap (0, 0) (0, 0)
      (List.replicate 536870911 ((0, 0) : ScopedRef))).2.2.2
     (List.length_replicate 536870911 ((0, 0) : ScopedRef))⟩

/-- Claim C3: `new_symbol` fails with the name-too-long error exactly
when the name length exceeds u32max, and in the error case the heap (and
therefore the destination slot) is not mutated. -/
theorem C3_new_symbol_name_too_long (h : Heap) (into : ScopedRef)
    (s : List Nat) :
    ((h.new_symbol into s).2 = .error .mk ↔ s.length > u32max)
    ∧ (s.length > u32max → (h.new_symbol into s).1 = h) := by
  unfold Heap.new_symbol Heap.alloc_symbol
  by_cases hl : s.length > u32max <;> simp [hl]

/-- Witness for C3_new_symbol_name_too_long: a name of length 2 to the
power 32 is rejected without mutating the heap. -/
theorem C3_new_symbol_name_too_long_witness :
    (demoHeap.new_symbol (0, 0) (List.replicate (2 ^ 32) 0)).1 = demoHeap :=
  (C3_new_symbol_name_too_long demoHeap (0, 0) _).2 (by norm_num [u32max])

/-- Claim C4: below 8 the free cache is exact: inserting d < 8 into
EMPTY makes contains answer `some true` at d and `some false` at every
other index; inserting d at least 8 yields UNKNOWN; UNKNOWN answers
`none` everywhere and absorbs insertions. -/
theorem C4_freecache_exact_below_8 (d d' : Nat) :
    (d < 8 →
      (FreeCache.EMPTY.insert d).contains d = some true
      ∧ (d' ≠ d → (FreeCache.EMPTY.insert d).contains d' = some false))
    ∧ (8 ≤ d → FreeCache.EMPTY.insert d = FreeCache.UNKNOWN)
    ∧ FreeCache.UNKNOWN.contains d = none
    ∧ FreeCache.UNKNOWN.insert d = FreeCache.UNKNOWN := by
  refine ⟨fun hd => ⟨?_, fun hne => ?_⟩, fun hd => ?_, ?_, ?_⟩
  · interval_cases d <;> decide
  · rw [FreeCache.insert_small _ _ (by omega)]
    unfold FreeCache.contains FreeCache.EMPTY FreeCache.UNKNOWN
    simp only [Nat.zero_or]
    rw [if_neg (FreeCache.two_pow_ne_255 d hd)]
    by_cases hd' : 8 ≤ d'
    · rw [if_pos hd']
    · rw [if_neg hd']
      rw [FreeCache.bits_and_shift, Nat.one_shiftLeft, Nat.testBit_two_pow]
      simp [Ne.symm hne]
  · exact FreeCache.insert_large _ _ hd
  · rfl
  · exact FreeCache.insert_unknown d

/-- Witness for C4_freecache_exact_below_8 at d = 3 and the distinct
index 5. -/
theorem C4_freecache_exact_below_8_witness :
    (FreeCache.EMPTY.insert 3).contains 3 = some true
    ∧ (FreeCache.EMPTY.insert 3).contains 5 = some false :=
  ⟨((C4_freecache_exact_below_8 3 5).1 (by decide)).1,
   ((C4_freecache_exact_below_8 3 5).1 (by decide)).2 (by decide)⟩

/-- Claim C5: the free cache of a constructed Application equals the
UNKNOWN-absorbing union (bitwise OR) of the free cache of the function
and of every argument; union is bitwise OR and UNKNOWN absorbs; an
application over Variables with indices 1, 3, 9 has free cache UNKNOWN
and one over 1, 3, 5 has exactly bits 1, 3, 5 set (value 42). -/
theorem C5_application_free_cache_union (h : Heap) (into function : ScopedRef)
    (arguments : List ScopedRef) (hv : h.validRef into)
    (hok : (h.new_application into function arguments).2 = .ok ()) :
    ((h.new_application into function arguments).1.getObj
        ((h.new_application into function arguments).1.readSlot into)).header.free_cache
      = ((function :: arguments).map
          (fun f => (h.getObj (h.readSlot f)).header.free_cache)).foldl
          FreeCache.union FreeCache.EMPTY
    ∧ (∀ a b : FreeCache, a.union b = ⟨a.bits ||| b.bits⟩)
    ∧ (∀ a : FreeCache, a.bits < 256 →
        FreeCache.UNKNOWN.union a = FreeCache.UNKNOWN
        ∧ a.union FreeCache.UNKNOWN = FreeCache.UNKNOWN)
    ∧ appFreeCacheDemo [1, 3, 9] = FreeCache.UNKNOWN
    ∧ appFreeCacheDemo [1, 3, 5] = ⟨42⟩
    ∧ (∀ d : Nat, (appFreeCacheDemo [1, 3, 5]).contains d
        = some (decide (d = 1 ∨ d = 3 ∨ d = 5))) := by
  have h42 : appFreeCacheDemo [1, 3, 5] = ⟨42⟩ := by decide
  refine ⟨?_, fun a b => rfl, fun a ha => ⟨?_, ?_⟩, by decide, h42, ?_⟩
  · cases hp : payload_size arguments.length with
    | error e =>
      rw [aux_new_application_snd, hp] at hok
      simp [Except.map] at hok
    | ok v =>
      have h2eq : (h.new_application into function arguments).1
          = (h.allocObj
              { header :=
                  { kind := .Application, flags := Flags.empty,
                    free_cache :=
                      (function :: arguments).foldl
                        (fun c f =>
                          c.union (h.getObj (h.readSlot f)).header.free_cache)
                        FreeCache.EMPTY,
                    extra := v / PTR_SIZE },
                payload := .fields ((function :: arguments).map h.readSlot) }).1.writeSlot
            into h.store.length := by
        unfold Heap.new_application Heap.alloc_application
        rw [hp]
        rfl
      rw [h2eq, aux_alloc_write_read h into _ hv, aux_alloc_write_getObj]
      rw [List.foldl_map]
  · show FreeCache.mk (255 ||| a.bits) = _
    rw [aux_lor_255 a.bits ha]
    rfl
  · show FreeCache.mk (a.bits ||| 255) = _
    rw [Nat.lor_comm, aux_lor_255 a.bits ha]
    rfl
  · intro d
    rw [h42]
    by_cases hd : d < 8
    · interval_cases d <;> decide
    · unfold FreeCache.contains
      rw [if_neg (by decide), if_pos (by omega)]
      have hnd : ¬ (d = 1 ∨ d = 3 ∨ d = 5) := by omega
      simp [hnd]

/-- Witness for C5_application_free_cache_union at a concrete input. -/
theorem C5_application_free_cache_union_witness :
    appFreeCacheDemo [1, 3, 9] = FreeCache.UNKNOWN
    ∧ appFreeCacheDemo [1, 3, 5] = ⟨42⟩ :=
  ⟨(C5_application_free_cache_union demoHeap (0, 0) (0, 0) []
      (by decide) rfl).2.2.2.1,
   (C5_application_free_cache_union demoHeap (0, 0) (0, 0) []
      (by decide) rfl).2.2.2.2.1⟩

/-- Claim C6: `with_pin` sets the PINNED flag for the duration of the
callback and restores it on every exit path: if PINNED was already set
the callback runs and the flag is not touched afterwards; otherwise the
flag is set before the callback runs (the callback sees it set), and it
is cleared after the callback on every exit path (the clearing is the
deferred cleanup, applied to whatever state and result the callback
produced, also when that result models abnormal termination); nested
`with_pin` on the same slot behaves as a single `with_pin`, so the flag
stays set throughout the inner call and is clear after the outermost
exit. -/
theorem C6_with_pin_protocol {R : Type} (h : Heap) (s : ScopedRef) (a : Nat)
    (then_ : Heap → Nat → Heap × R) (ha : h.readSlot s = a) :
    ((h.getObj a).header.flags.pinned = true →
      h.with_pin s then_ = then_ h a)
    ∧ ((h.getObj a).header.flags.pinned = false →
        h.with_pin s then_ =
          ((then_ (h.setPinned a true) a).1.setPinned a false,
           (then_ (h.setPinned a true) a).2))
    ∧ ((h.getObj a).header.flags.pinned = false → a < h.store.length →
        ((h.setPinned a true).getObj a).header.flags.pinned = true)
    ∧ ((h.getObj a).header.flags.pinned = false →
        a < (then_ (h.setPinned a true) a).1.store.length →
        ((h.with_pin s then_).1.getObj a).header.flags.pinned = false)
    ∧ ((h.getObj a).header.flags.pinned = false → a < h.store.length →
        h.with_pin s (fun h1 _ => h1.with_pin s then_) = h.with_pin s then_) := by
  subst ha
  refine ⟨fun hp => ?_, fun hp => ?_, fun hp hlt => ?_,
    fun hp hlt => ?_, fun hp hlt => ?_⟩
  · exact aux_with_pin_already h s then_ hp
  · exact aux_with_pin_fresh h s then_ hp
  · exact aux_pinned_setPinned h _ true hlt
  · rw [aux_with_pin_fresh h s then_ hp]
    exact aux_pinned_setPinned _ _ false hlt
  · rw [aux_with_pin_fresh h s _ hp, aux_with_pin_fresh h s then_ hp]
    have hinner : (h.setPinned (h.readSlot s) true).with_pin s then_
        = then_ (h.setPinned (h.readSlot s) true) (h.readSlot s) :=
      aux_with_pin_already _ s then_
        (aux_pinned_setPinned h (h.readSlot s) true hlt)
    rw [hinner]

/-- Witness for C6_with_pin_protocol: after a `with_pin` on a freshly
scoped object of the demo heap, the PINNED flag is clear. -/
theorem C6_with_pin_protocol_witness :
    ((demoHeap.with_pin (0, 0)
        (fun h1 x => (h1, x))).1.getObj 0).header.flags.pinned = false :=
  (C6_with_pin_protocol demoHeap (0, 0) 0 (fun h1 x => (h1, x))
      (by decide)).2.2.2.1 (by decide) (by decide)

/-- Claim C7: for d < 16 `new_variable` does not allocate and stores
exactly the preallocated interned variable handle, so reading the
destination yields the interned handle on every repetition; for d at
least 16 `interned_variable` is none and a fresh non-interned Variable
object is allocated; `new_variable` never fails (it is total). -/
theorem C7_interned_variable_identity (h : Heap) (into : ScopedRef) (d : Nat)
    (hlen : h.interned_variables.length = INTERNED_VARIABLE_COUNT)
    (hv : h.validRef into) :
    (d < 16 →
       (h.new_variable into d).store = h.store
       ∧ h.interned_variable d = some ((h.new_variable into d).readSlot into)
       ∧ ((h.new_variable into d).new_variable into d).readSlot into
           = (h.new_variable into d).readSlot into)
    ∧ (16 ≤ d →
       h.interned_variable d = none
       ∧ (h.new_variable into d).store = h.store ++ [variableObject d]
       ∧ (h.new_variable into d).readSlot into = h.store.length) := by
  constructor
  · intro hd
    obtain ⟨v, hvd⟩ : ∃ v, h.interned_variables.get? d = some v := by
      rw [List.get?_eq_getElem?]
      refine ⟨_, List.getElem?_eq_getElem ?_⟩
      unfold INTERNED_VARIABLE_COUNT at hlen
      omega
    have hnv : h.new_variable into d = h.writeSlot into v := by
      unfold Heap.new_variable Heap.alloc_variable
      rw [hvd]
    have hvd1 : (h.writeSlot into v).interned_variables.get? d = some v := by
      rw [aux_writeSlot_interned]; exact hvd
    have hnv1 : (h.writeSlot into v).new_variable into d
        = (h.writeSlot into v).writeSlot into v := by
      unfold Heap.new_variable Heap.alloc_variable
      rw [hvd1]
    refine ⟨by rw [hnv]; rfl, ?_, ?_⟩
    · rw [hnv, aux_readSlot_writeSlot_self h into v hv]
      unfold Heap.interned_variable
      exact hvd
    · rw [hnv, hnv1,
        aux_readSlot_writeSlot_self _ into v
          ((aux_validRef_writeSlot h into into v).mpr hv),
        aux_readSlot_writeSlot_self h into v hv]
  · intro hd
    have hnone : h.interned_variables.get? d = none := by
      rw [List.get?_eq_getElem?]
      apply List.getElem?_eq_none
      unfold INTERNED_VARIABLE_COUNT at hlen
      omega
    have hnv : h.new_variable into d
        = (h.allocObj (variableObject d)).1.writeSlot into h.store.length := by
      unfold Heap.new_variable Heap.alloc_variable Heap.alloc_variable_not_interned
      rw [hnone]
      rfl
    refine ⟨hnone, ?_, ?_⟩
    · rw [hnv, aux_writeSlot_store]
      rfl
    · rw [hnv]
      exact aux_readSlot_writeSlot_self _ into _
        ((aux_validRef_allocObj h _ into).mpr hv)

/-- Witness for C7_interned_variable_identity at d = 5 on the demo
heap. -/
theorem C7_interned_variable_identity_witness :
    (demoHeap.new_variable (0, 0) 5).store = demoHeap.store
    ∧ demoHeap.interned_variable 5
      = some ((demoHeap.new_variable (0, 0) 5).readSlot (0, 0))
    ∧ ((demoHeap.new_variable (0, 0) 5).new_variable (0, 0) 5).readSlot (0, 0)
      = (demoHeap.new_variable (0, 0) 5).readSlot (0, 0) :=
  (C7_interned_variable_identity demoHeap (0, 0) 5 (by decide) (by decide)).1
    (by decide)

/-- Claim C8: every slot of a freshly opened scope — both the fixed-size
array scope and the variable-size boxed scope, for every size — initially
reads as the interned null handle: a callback that immediately reads all
slots of the new scope sees only `interned_null`. -/
theorem C8_fresh_scope_slots_null (h : Heap) (n size : Nat) :
    (h.with_new_array_scope n (fun h1 s =>
        (h1, (List.range n).map (fun j => h1.readSlot (s, j))))).2
      = List.replicate n h.interned_null
    ∧ (h.with_new_boxed_scope size (fun h1 s =>
        (h1, (List.range size).map (fun j => h1.readSlot (s, j))))).2
      = List.replicate size h.interned_null := by
  constructor <;>
  · show (List.range _).map _ = _
    rw [List.map_congr_left (fun j hj => by
      rw [aux_readSlot_push,
        aux_getD_replicate (List.mem_range.mp hj)])]
    rw [List.map_const', List.length_range]

/-- Claim C9: for every byte slice s of length at most u32max,
`new_symbol` succeeds and reading back through a pinned handle with
`as_symbol` yields exactly s; the extra field of the new object stores
the length of s and the payload stores the name bytes of s. -/
theorem C9_symbol_roundtrip (h : Heap) (into : ScopedRef) (s : List Nat)
    (hv : h.validRef into) (hs : s.length ≤ u32max) :
    (h.new_symbol into s).2 = .ok ()
    ∧ ((h.new_symbol into s).1.with_pin into
        (fun h' a => (h', h'.as_symbol a))).2 = some s
    ∧ ((h.new_symbol into s).1.getObj
        ((h.new_symbol into s).1.readSlot into)).header.extra = s.length
    ∧ ((h.new_symbol into s).1.getObj
        ((h.new_symbol into s).1.readSlot into)).payload = .bytes s := by
  have h2eq : (h.new_symbol into s).1 =
      (h.allocObj
        { header := { kind := .Symbol, flags := Flags.empty,
                      free_cache := FreeCache.EMPTY, extra := s.length },
          payload := .bytes s }).1.writeSlot into h.store.length := by
    unfold Heap.new_symbol Heap.alloc_symbol
    rw [if_neg (by omega)]
    rfl
  have hsnd : (h.new_symbol into s).2 = .ok () := by
    unfold Heap.new_symbol Heap.alloc_symbol
    rw [if_neg (by omega)]
  have hr := aux_alloc_write_read h into
    { header := { kind := .Symbol, flags := Flags.empty,
                  free_cache := FreeCache.EMPTY, extra := s.length },
      payload := .bytes s } hv
  have hg := aux_alloc_write_getObj h into
    { header := { kind := .Symbol, flags := Flags.empty,
                  free_cache := FreeCache.EMPTY, extra := s.length },
      payload := .bytes s }
  refine ⟨hsnd, ?_, ?_, ?_⟩
  · rw [h2eq, aux_with_pin_as_symbol _ into (by rw [hr, hg]; rfl), hr,
      aux_as_symbol_of_getObj _ _ _ hg rfl]
    show some (s.take s.length) = some s
    rw [List.take_length]
  · rw [h2eq, hr, hg]
  · rw [h2eq, hr, hg]

/-- Witness for C9_symbol_roundtrip on the one-byte name 65. -/
theorem C9_symbol_roundtrip_witness :
    (demoHeap.new_symbol (0, 0) [65]).2 = .ok ()
    ∧ ((demoHeap.new_symbol (0, 0) [65]).1.with_pin (0, 0)
        (fun h' a => (h', h'.as_symbol a))).2 = some [65]
    ∧ ((demoHeap.new_symbol (0, 0) [65]).1.getObj
        ((demoHeap.new_symbol (0, 0) [65]).1.readSlot (0, 0))).header.extra
      = ([65] : List Nat).length
    ∧ ((demoHeap.new_symbol (0, 0) [65]).1.getObj
        ((demoHeap.new_symbol (0, 0) [65]).1.readSlot (0, 0))).payload
      = .bytes [65] :=
  C9_symbol_roundtrip demoHeap (0, 0) [65] (by decide) (by decide)

/-- Claim C10: inserting every index 0..7 into EMPTY, in any order,
produces the reserved UNKNOWN byte 0xFF, after which contains answers
none for every index; and the bitwise-OR union of two caches that
jointly cover the indices 0..7 is UNKNOWN, so the exact state where all
of 0..7 are free is not representable. -/
theorem C10_freecache_saturation (l : List Nat) (a b : FreeCache)
    (hl : l.Perm [0, 1, 2, 3, 4, 5, 6, 7]) :
    l.foldl FreeCache.insert FreeCache.EMPTY = FreeCache.UNKNOWN
    ∧ (∀ d, (l.foldl FreeCache.insert FreeCache.EMPTY).contains d = none)
    ∧ (a.bits < 256 → b.bits < 256 →
       (∀ d, d < 8 → a.contains d = some true ∨ b.contains d = some true) →
       a.union b = FreeCache.UNKNOWN) := by
  haveI : RightCommutative FreeCache.insert :=
    ⟨fun c x y => FreeCache.insert_right_comm c x y⟩
  have h1 : l.foldl FreeCache.insert FreeCache.EMPTY = FreeCache.UNKNOWN := by
    rw [hl.foldl_eq]; decide
  refine ⟨h1, fun d => by rw [h1]; rfl, fun hA hB hcov => ?_⟩
  show FreeCache.mk (a.bits ||| b.bits) = FreeCache.UNKNOWN
  have hb : a.bits ||| b.bits = 255 := by
    apply Nat.eq_of_testBit_eq
    intro i
    have h255 : (255 : Nat) = 2 ^ 8 - 1 := by norm_num
    rw [h255, Nat.testBit_lor, Nat.testBit_two_pow_sub_one]
    by_cases hi : i < 8
    · rcases hcov i hi with hc | hc <;>
        simp [FreeCache.contains_some_true hc, hi]
    · have hlt : a.bits ||| b.bits < 2 ^ i := by
        calc a.bits ||| b.bits < 2 ^ 8 := Nat.or_lt_two_pow hA hB
        _ ≤ 2 ^ i := Nat.pow_le_pow_right (by norm_num) (by omega)
      rw [← Nat.testBit_lor]
      simp [Nat.testBit_lt_two_pow hlt, hi]
  rw [hb]
  rfl

/-- Witness for C10_freecache_saturation on a shuffled insertion order
and on the covering pair of caches with bit patterns 15 and 240. -/
theorem C10_freecache_saturation_witness :
    ([7, 0, 6, 1, 5, 2, 4, 3] : List Nat).foldl FreeCache.insert
        FreeCache.EMPTY = FreeCache.UNKNOWN
    ∧ FreeCache.union ⟨15⟩ ⟨240⟩ = FreeCache.UNKNOWN :=
  ⟨(C10_freecache_saturation [7, 0, 6, 1, 5, 2, 4, 3] ⟨15⟩ ⟨240⟩
      (by decide)).1,
   (C10_freecache_saturation [7, 0, 6, 1, 5, 2, 4, 3] ⟨15⟩ ⟨240⟩
      (by decide)).2.2 (by decide) (by decide) (by decide)⟩
